import Mathlib

/-!
Verification development for the grepo repository (package grepo, src/grepo.go,
first package revision, lines 1-686, which is the revision the tests and the
README exercise).  The Go code is shallowly embedded: Go `any` values are the
inductive `Value` below (tagged by their Go dynamic type), Go maps are
association lists with insert-or-replace semantics, and the stateful
`RowMap` accessors are modelled by explicit state passing.
-/

/-- Go `string`.  An abbreviation is used so that accessor signatures such as
`RowMap.String` can mention the builtin type without name-resolution clashes. -/
abbrev GoStr := String

/-- Go `bool`. -/
abbrev GoBool := Bool

/-- Go `float64`/`float32` payloads.  Lean 4.14 has no `Float32`, so both
widths carry a `Float`; see `f32narrow`. -/
abbrev GoFloat := Float

/-- The reflect.Kind of a Go slice's static element type, as far as the
switches in `grepo` distinguish them (`reflect.Int*`, `reflect.String`,
`reflect.Bool`, `reflect.Float*`; `reflect.Uint8` for `[]byte` elements;
`kIface` for `[]any`, whose elements have Kind `Interface` and therefore fall
into the `default` branch of the rendering switch). -/
inductive GoKind where
  | kInt64 | kInt | kString | kBool | kFloat64 | kUint8 | kIface
deriving Repr

/-- A Go `any` value, tagged by its dynamic type.  This is the value space of
query arguments and of decoded row columns.  `vslice k xs` is a Go slice whose
static element kind is `k` (elements are stored boxed; for `k ≠ kIface` they
are expected to carry the matching tag).  `vbytes` is `[]byte` (which also has
reflect Kind `Slice`), `vnull` is the nil interface. -/
inductive Value where
  | vint64 (n : Int)
  | vint32 (n : Int)
  | vint16 (n : Int)
  | vint8 (n : Int)
  | vint (n : Int)
  | vuint8 (n : Nat)
  | vstr (s : GoStr)
  | vbool (b : Bool)
  | vfloat64 (f : GoFloat)
  | vfloat32 (f : GoFloat)
  | vbytes (bs : List Nat)
  | vnull
  | vslice (k : GoKind) (xs : List Value)
deriving Repr

/-- `unicode.IsSpace` restricted to the code points the embedding needs
(the ASCII whitespace characters plus NEL and NBSP; other Unicode
space-property code points are not modelled). -/
def goIsSpace (c : Char) : Bool :=
  c == ' ' || c == '\t' || c == '\n' || c == (Char.ofNat 11) ||
  c == (Char.ofNat 12) || c == '\r' || c == (Char.ofNat 0x85) || c == (Char.ofNat 0xA0)

/-- Worker for `strings.Fields`: split a character list around runs of
whitespace, dropping empty fields.  `acc` holds the current field reversed. -/
def fieldsAux : List Char → List Char → List (List Char)
  | [], acc => if acc.isEmpty then [] else [acc.reverse]
  | c :: cs, acc =>
    if goIsSpace c then
      if acc.isEmpty then fieldsAux cs [] else acc.reverse :: fieldsAux cs []
    else
      fieldsAux cs (c :: acc)

/-- `strings.Fields`: whitespace-delimited tokens of a query text. -/
def goFields (s : GoStr) : List GoStr :=
  (fieldsAux s.data []).map (fun l => String.mk l)

/-- `strings.HasPrefix(word, ":")` — the named-placeholder sigil test. -/
def startsWithColon (w : GoStr) : Bool :=
  match w.data with
  | ':' :: _ => true
  | _ => false

/-- `unicode.IsLetter`, modelled by ASCII letters.  The approximation is
irrelevant to `trimPredicate`: its last conjunct restricts the trimmed set to
`:`, `(`, `)`, none of which is a letter under any definition. -/
def goIsLetter (c : Char) : Bool := c.isAlpha

/-- `unicode.IsNumber`, modelled by ASCII digits (same remark as
`goIsLetter`). -/
def goIsNumber (c : Char) : Bool := c.isDigit

/-- The anonymous predicate passed to `strings.TrimFunc` in both
`namedParameters` and `substitute`:
`!unicode.IsLetter(r) && !unicode.IsNumber(r) && (r == ':' || r == '(' || r == ')')`.
Note that, as written in the source, it is satisfied exactly by the three
characters `:`, `(`, `)` — the first two conjuncts are vacuous for them. -/
def trimPredicate (r : Char) : Bool :=
  (!goIsLetter r) && (!goIsNumber r) && (r == ':' || r == '(' || r == ')')

/-- `strings.TrimFunc(word, trimPredicate)`: remove leading and trailing
characters satisfying the predicate. -/
def trimParam (w : GoStr) : GoStr :=
  String.mk (((w.data.dropWhile trimPredicate).reverse.dropWhile trimPredicate).reverse)

/-- Modelled from the spec: the trimming step as §4.1 step 2 words it — "strip
all surrounding characters except letters, digits, and the sigil itself".
(This definition exists only to be compared against the source's
`trimParam`.) -/
def trimParamSpec (w : GoStr) : GoStr :=
  String.mk (((w.data.dropWhile
      (fun r => !(goIsLetter r || goIsNumber r || r == ':'))).reverse.dropWhile
      (fun r => !(goIsLetter r || goIsNumber r || r == ':'))).reverse)

/-- `paramEntry` (src/grepo.go:611-616). -/
structure ParamEntry where
  name : GoStr
  pos : Nat
  val : Value
  len : Nat
deriving Repr

/-- Lookup in an association list modelling a Go `map`. -/
def mlookup {α : Type} (xs : List (GoStr × α)) (k : GoStr) : Option α :=
  match xs with
  | [] => none
  | (k', v) :: rest => if k' = k then some v else mlookup rest k

/-- Go map assignment `m[k] = v`: replace the binding if the key is present,
append it otherwise. -/
def insertReplace {α : Type} (xs : List (GoStr × α)) (k : GoStr) (v : α) :
    List (GoStr × α) :=
  match xs with
  | [] => [(k, v)]
  | (k', v') :: rest =>
    if k' = k then (k, v) :: rest else (k', v') :: insertReplace rest k v

/-- Go map read `args[param]` on a `map[string]any`: a missing key yields the
nil interface. -/
def lookupArg (args : List (GoStr × Value)) (k : GoStr) : Value :=
  (mlookup args k).getD Value.vnull

/-- `reflect.ValueOf(v).Kind() == reflect.Slice` together with `rv.Len()`:
`some len` when the dynamic type is a slice kind (including `[]byte`),
`none` otherwise (including the nil interface, whose reflect value is
invalid). -/
def sliceKindLen (v : Value) : Option Nat :=
  match v with
  | Value.vslice _ xs => some xs.length
  | Value.vbytes bs => some bs.length
  | _ => none

/-- The amount the position counter additionally advances for a value
(`position += rv.Len()` in the slice branch, nothing otherwise). -/
def sliceBonus (v : Value) : Nat := (sliceKindLen v).getD 0

/-- The `len` field stored in a fresh entry: initialised to 1 and overwritten
with `rv.Len()` in the slice branch. -/
def entryLen (v : Value) : Nat := (sliceKindLen v).getD 1

/-- The loop body of `namedParameters` (src/grepo.go:618-653), recursing over
the token list with the accumulated entry map and the running position
counter.  Every `:`-token — re-occurrences included — pre-increments the
counter, builds a fresh entry holding the incremented counter, advances the
counter further by the slice length for slice-kind values, and stores the
entry under the trimmed name (overwriting any previous one). -/
def npGo (args : List (GoStr × Value)) :
    List GoStr → List (GoStr × ParamEntry) → Nat → List (GoStr × ParamEntry)
  | [], params, _ => params
  | word :: rest, params, position =>
    if startsWithColon word then
      npGo args rest
        (insertReplace params (trimParam word)
          { name := trimParam word
            pos := position + 1
            val := lookupArg args (trimParam word)
            len := entryLen (lookupArg args (trimParam word)) })
        (position + 1 + sliceBonus (lookupArg args (trimParam word)))
    else
      npGo args rest params position

/-- `namedParameters` (src/grepo.go:618-653).  Note: the function never fails;
the source carries the comment "this needs to error if the named param is not
found" but unconditionally creates an entry whose value is `args[param]`
(the nil interface when the name is absent from the argument map). -/
def namedParameters (s : GoStr) (args : List (GoStr × Value)) :
    List (GoStr × ParamEntry) :=
  npGo args (goFields s) [] 0

/-- The two failure modes of `substitute` (src/grepo.go:676 and 682). -/
inductive SubErr where
  | paramNotFound (param : GoStr)
  | countMismatch (args : Nat) (replaced : Nat)
deriving Repr, DecidableEq

/-- The positional markers materialised for one entry:
`$position, $position+1, …` (`pe.len` of them), joined by `", "`. -/
def posMarkers (position : Nat) (len : Nat) : GoStr :=
  String.intercalate ", "
    ((List.range len).map (fun pi => "$" ++ toString (position + pi)))

/-- The loop of `substitute` (src/grepo.go:660-679): walk the tokens keeping
an independent position counter, rewrite each placeholder token into its
markers, abort on a name missing from the entry map, and count the
placeholder occurrences processed (the `found` list). -/
def subFields (params : List (GoStr × ParamEntry)) :
    List GoStr → Nat → Except SubErr (List GoStr × Nat)
  | [], _ => Except.ok ([], 0)
  | word :: rest, position =>
    if startsWithColon word then
      match mlookup params (trimParam word) with
      | some pe =>
        match subFields params rest (position + pe.len) with
        | Except.ok (ws, cnt) => Except.ok (posMarkers position pe.len :: ws, cnt + 1)
        | Except.error e => Except.error e
      | none => Except.error (SubErr.paramNotFound (trimParam word))
    else
      match subFields params rest position with
      | Except.ok (ws, cnt) => Except.ok (word :: ws, cnt)
      | Except.error e => Except.error e

/-- `substitute` (src/grepo.go:655-686): rewrite the token list (counter
starting at 1), then fail with the count mismatch if the number of placeholder
occurrences processed differs from the number of entries, else rejoin the
tokens with single spaces. -/
def substitute (sql : GoStr) (params : List (GoStr × ParamEntry)) :
    Except SubErr GoStr :=
  match subFields params (goFields sql) 1 with
  | Except.error e => Except.error e
  | Except.ok (ws, cnt) =>
    if cnt ≠ params.length then
      Except.error (SubErr.countMismatch params.length cnt)
    else
      Except.ok (String.intercalate " " ws)

/-- Insertion step for the sort in `flattenArgs` (ascending by `pos`; the
source sorts the random-order `maps.Values` sequence with
`slices.SortedFunc`, which is deterministic here because entries built by
`namedParameters` carry pairwise distinct positions). -/
def insertByPos (pe : ParamEntry) : List ParamEntry → List ParamEntry
  | [] => [pe]
  | q :: rest =>
    if pe.pos ≤ q.pos then pe :: q :: rest else q :: insertByPos pe rest

/-- Sort a list of entries ascending by `pos`. -/
def sortByPos (pes : List ParamEntry) : List ParamEntry :=
  pes.foldr insertByPos []

/-- The per-entry step of `flattenArgs`: slice-kind values contribute every
element in order (`elem.Interface()`; bytes box as `uint8`), anything else
contributes the stored value once.  (The `pe.len = rv.Len()` assignment in the
source mutates a loop-local copy and is dead; it is not modelled.) -/
def flattenOne (pe : ParamEntry) : List Value :=
  match pe.val with
  | Value.vslice _ xs => xs
  | Value.vbytes bs => bs.map Value.vuint8
  | v => [v]

/-- `flattenArgs` (src/grepo.go:240-270). -/
def flattenArgs (entries : List (GoStr × ParamEntry)) : List Value :=
  (sortByPos (entries.map Prod.snd)).foldl (fun acc pe => acc ++ flattenOne pe) []

/-- The errors a `RowMap` accumulates: the "key does not exist" error from
`RowMap.try` (src/grepo.go:408-413) and `ColReadError{key, value, target}`
(src/grepo.go:605-609). -/
inductive GrepoErr where
  | keyNotFound (k : GoStr)
  | colRead (key : GoStr) (value : Value) (target : GoStr)
deriving Repr

/-- `RowMap` (src/grepo.go:337-347): one decoded row plus the error
accumulator.  The Go methods mutate through a pointer; here each accessor
returns the read value together with the updated state. -/
structure RowMap where
  m : List (GoStr × Value)
  errors : List GrepoErr

/-- `toMap` (src/grepo.go:354-364): build the column map (later duplicate
column names overwrite earlier ones, as with a Go map) with an empty error
accumulator.  Surplus values (beyond the columns) are ignored; a missing value
is the nil interface, matching a Go map read. -/
def toMap (cols : List GoStr) (values : List Value) : RowMap :=
  { m := (cols.enum.map (fun p => (p.2, (values.get? p.1).getD Value.vnull))).foldl
      (fun acc p => insertReplace acc p.1 p.2) []
    errors := [] }

/-- `addErr` (src/grepo.go:393-395): append to the accumulator. -/
def RowMap.addErr (m : RowMap) (e : GrepoErr) : RowMap :=
  { m with errors := m.errors ++ [e] }

/-- `Err` (src/grepo.go:397-399): `errors.Join` of the accumulator — `none`
exactly when no error was recorded (every recorded error is non-nil). -/
def RowMap.Err (m : RowMap) : Option (List GrepoErr) :=
  if m.errors.isEmpty then none else some m.errors

/-- `try` (src/grepo.go:408-413), renamed because `try` is a Lean keyword:
`some` of the key-not-found error when the key is absent. -/
def RowMap.tryGet (m : RowMap) (k : GoStr) : Option GrepoErr :=
  match mlookup m.m k with
  | some _ => none
  | none => some (GrepoErr.keyNotFound k)

/-- `m.m[k]` after a successful `try`: the stored value (nil interface if the
key were absent, which `tryGet` rules out at the call sites). -/
def RowMap.mget (m : RowMap) (k : GoStr) : Value :=
  (mlookup m.m k).getD Value.vnull

/-- Two's-complement wrap of an integer to `bits` bits: the effect of the Go
conversion `T(val)` between signed integer widths. -/
def intWrap (bits : Nat) (n : Int) : Int :=
  (n + 2 ^ (bits - 1)) % 2 ^ bits - 2 ^ (bits - 1)

/-- `toInteger[T]` (src/grepo.go:367-380) for the target width `bits`:
any stored signed-integer shape converts (wrapping), every other shape is the
"cannot convert" error, modelled as `none`. -/
def toInteger (bits : Nat) (v : Value) : Option Int :=
  match v with
  | Value.vint64 n => some (intWrap bits n)
  | Value.vint32 n => some (intWrap bits n)
  | Value.vint16 n => some (intWrap bits n)
  | Value.vint8 n => some (intWrap bits n)
  | _ => none

/-- Narrowing `float64` → `float32`.  Lean 4.14 has no 32-bit float type, so
the narrowing is modelled as value-preserving; no claim depends on the
rounded numeric value, only on which shapes convert. -/
def f32narrow (f : GoFloat) : GoFloat := f

/-- `toFloat[T]` (src/grepo.go:382-391): `float32` and `float64` shapes
convert (widening `float32` → `float64` is exact; narrowing via
`f32narrow`), everything else is the conversion error, modelled as `none`. -/
def toFloat (target32 : Bool) (v : Value) : Option GoFloat :=
  match v with
  | Value.vfloat32 f => some f
  | Value.vfloat64 f => some (if target32 then f32narrow f else f)
  | _ => none

/-- Go interface equality on two boxed values: equal dynamic type and equal
payload.  (Float comparison follows IEEE `==`, as in Go; comparing
uncomparable types panics in Go and is modelled as `false`, which no modelled
code path reaches.) -/
def goEq (a b : Value) : GoBool :=
  match a, b with
  | Value.vint64 x, Value.vint64 y => x == y
  | Value.vint32 x, Value.vint32 y => x == y
  | Value.vint16 x, Value.vint16 y => x == y
  | Value.vint8 x, Value.vint8 y => x == y
  | Value.vint x, Value.vint y => x == y
  | Value.vuint8 x, Value.vuint8 y => x == y
  | Value.vstr x, Value.vstr y => x == y
  | Value.vbool x, Value.vbool y => x == y
  | Value.vfloat64 x, Value.vfloat64 y => x == y
  | Value.vfloat32 x, Value.vfloat32 y => x == y
  | Value.vnull, Value.vnull => true
  | _, _ => false

/-- `String` (src/grepo.go:425-440): textual shape succeeds; anything else
records `ColReadError{k, v, "string"}` (with the stored value) and returns
the empty string. -/
def RowMap.String (m : RowMap) (k : GoStr) : GoStr × RowMap :=
  match m.tryGet k with
  | some e => ("", m.addErr e)
  | none =>
    match m.mget k with
    | Value.vstr v => (v, m)
    | v => ("", m.addErr (GrepoErr.colRead k v "string"))

/-- `Int64` (src/grepo.go:447-462).  Note: in the error branch the source
records `NewColReadError(k, v, "int64")` where `v` is the *zero result* of the
failed conversion — a boxed `int64(0)` — not the stored value. -/
def RowMap.Int64 (m : RowMap) (k : GoStr) : Int × RowMap :=
  match m.tryGet k with
  | some e => (0, m.addErr e)
  | none =>
    match toInteger 64 (m.mget k) with
    | some v => (v, m)
    | none => (0, m.addErr (GrepoErr.colRead k (Value.vint64 0) "int64"))

/-- `Int32` (src/grepo.go:469-483); same zero-result quirk in the recorded
error value. -/
def RowMap.Int32 (m : RowMap) (k : GoStr) : Int × RowMap :=
  match m.tryGet k with
  | some e => (0, m.addErr e)
  | none =>
    match toInteger 32 (m.mget k) with
    | some v => (v, m)
    | none => (0, m.addErr (GrepoErr.colRead k (Value.vint32 0) "int32"))

/-- `Int16` (src/grepo.go:490-504). -/
def RowMap.Int16 (m : RowMap) (k : GoStr) : Int × RowMap :=
  match m.tryGet k with
  | some e => (0, m.addErr e)
  | none =>
    match toInteger 16 (m.mget k) with
    | some v => (v, m)
    | none => (0, m.addErr (GrepoErr.colRead k (Value.vint16 0) "int16"))

/-- `Int8` (src/grepo.go:511-525). -/
def RowMap.Int8 (m : RowMap) (k : GoStr) : Int × RowMap :=
  match m.tryGet k with
  | some e => (0, m.addErr e)
  | none =>
    match toInteger 8 (m.mget k) with
    | some v => (v, m)
    | none => (0, m.addErr (GrepoErr.colRead k (Value.vint8 0) "int8"))

/-- `Float64` (src/grepo.go:530-544); the recorded error value is the zero
result `float64(0)`. -/
def RowMap.Float64 (m : RowMap) (k : GoStr) : GoFloat × RowMap :=
  match m.tryGet k with
  | some e => (0, m.addErr e)
  | none =>
    match toFloat false (m.mget k) with
    | some v => (v, m)
    | none => (0, m.addErr (GrepoErr.colRead k (Value.vfloat64 0) "float64"))

/-- `Float32` (src/grepo.go:549-563). -/
def RowMap.Float32 (m : RowMap) (k : GoStr) : GoFloat × RowMap :=
  match m.tryGet k with
  | some e => (0, m.addErr e)
  | none =>
    match toFloat true (m.mget k) with
    | some v => (v, m)
    | none => (0, m.addErr (GrepoErr.colRead k (Value.vfloat32 0) "float32"))

/-- `Bool` (src/grepo.go:568-584).  The multi-type case of the type switch
leaves `v` with static type `any`, so `v == 0` is an interface comparison
against a boxed `int` zero — the comparison `goEq v (Value.vint 0)` — which is
false for every `int64`/`int32`/`int16`/`int8` dynamic type.  Non-integer
shapes record `ColReadError{k, v, "bool"}` (with the stored value). -/
def RowMap.Bool (m : RowMap) (k : GoStr) : GoBool × RowMap :=
  match m.tryGet k with
  | some e => (false, m.addErr e)
  | none =>
    match m.mget k with
    | Value.vint64 n => (goEq (Value.vint64 n) (Value.vint 0), m)
    | Value.vint32 n => (goEq (Value.vint32 n) (Value.vint 0), m)
    | Value.vint16 n => (goEq (Value.vint16 n) (Value.vint 0), m)
    | Value.vint8 n => (goEq (Value.vint8 n) (Value.vint 0), m)
    | v => (false, m.addErr (GrepoErr.colRead k v "bool"))

/-- `Bytes` (src/grepo.go:589-603): the `[]byte` shape succeeds; otherwise the
failed assertion leaves `r` as a nil `[]byte` (boxed as an empty byte value in
the recorded error) and nil — the empty list — is returned. -/
def RowMap.Bytes (m : RowMap) (k : GoStr) : List Nat × RowMap :=
  match m.tryGet k with
  | some e => ([], m.addErr e)
  | none =>
    match m.mget k with
    | Value.vbytes bs => (bs, m)
    | _ => ([], m.addErr (GrepoErr.colRead k (Value.vbytes []) "[]byte"))

/-- `%d` rendering of a Go integer. -/
def goItoa (n : Int) : GoStr := toString n

/-- `%v` rendering of a boxed value, for the `default` branches of the
rendering switch (interface-kind and `uint8` elements).  Float rendering is
modelled by Lean's `toString`; the digit-exact Go `%v` float format is not
modelled (no claim depends on it). -/
def goVerbV (v : Value) : GoStr :=
  match v with
  | Value.vint64 n => goItoa n
  | Value.vint32 n => goItoa n
  | Value.vint16 n => goItoa n
  | Value.vint8 n => goItoa n
  | Value.vint n => goItoa n
  | Value.vuint8 n => toString n
  | Value.vstr s => s
  | Value.vbool b => if b then "true" else "false"
  | Value.vfloat64 f => toString f
  | Value.vfloat32 f => toString f
  | Value.vbytes bs => "[" ++ String.intercalate " " (bs.map toString) ++ "]"
  | Value.vnull => "<nil>"
  | Value.vslice _ xs =>
    "[" ++ String.intercalate " " (xs.attach.map (fun x => goVerbV x.1)) ++ "]"
decreasing_by
  have := List.sizeOf_lt_of_mem x.2
  simp only [Value.vslice.sizeOf_spec] at *
  omega

/-- `%f` rendering of a Go float.  Modelled by Lean's `toString`; the
digit-exact fixed-point format (six fractional digits) is not modelled (no
claim depends on it). -/
def goFmtF (f : GoFloat) : GoStr := toString f

/-- One element of the slice-expansion loop in `MapRows`
(src/grepo.go:145-159): the switch is on `elem.Kind()`, i.e. the slice's
static element kind — signed integers render `%d`, bools `%t`, strings `%s`
wrapped in single quotes, floats `%f`, and everything else (including
interface-kind and `uint8` elements) `%v`. -/
def renderElem (k : GoKind) (v : Value) : GoStr :=
  match k with
  | GoKind.kInt64 =>
    match v with
    | Value.vint64 n => goItoa n
    | Value.vint n => goItoa n
    | w => goVerbV w
  | GoKind.kInt =>
    match v with
    | Value.vint n => goItoa n
    | Value.vint64 n => goItoa n
    | w => goVerbV w
  | GoKind.kBool =>
    match v with
    | Value.vbool b => if b then "true" else "false"
    | w => goVerbV w
  | GoKind.kString =>
    match v with
    | Value.vstr s => "\x27" ++ s ++ "\x27"
    | w => goVerbV w
  | GoKind.kFloat64 =>
    match v with
    | Value.vfloat64 f => goFmtF f
    | Value.vfloat32 f => goFmtF f
    | w => goVerbV w
  | GoKind.kUint8 => goVerbV v
  | GoKind.kIface => goVerbV v

/-- The argument pre-processing loop of `MapRows` (src/grepo.go:137-164):
every slice-kind argument is replaced — in place, in the caller's slice — by
the single string joining its rendered elements with `", "`; other arguments
pass through unchanged. -/
def expandSliceArgs (args : List Value) : List Value :=
  args.map (fun a =>
    match a with
    | Value.vslice k xs =>
      Value.vstr (String.intercalate ", " (xs.map (renderElem k)))
    | Value.vbytes bs =>
      Value.vstr (String.intercalate ", " (bs.map (fun b => goVerbV (Value.vuint8 b))))
    | v => v)

/-- Is a value of slice reflect-kind? -/
def isSliceKind (v : Value) : Bool := (sliceKindLen v).isSome

/-- The row-consumption loop of `MapRows` (src/grepo.go:188-205), abstracted
over the cursor: the external engine's output is the column-name list and the
scanned rows.  Each row is wrapped by `toMap` and handed to the mapping
function; the first mapping error aborts the whole call. -/
def mapRowsGo {T : Type} {E : Type} (cols : List GoStr)
    (mapFunc : RowMap → Except E T) : List (List Value) → Except E (List T)
  | [] => Except.ok []
  | row :: rest =>
    match mapFunc (toMap cols row) with
    | Except.error e => Except.error e
    | Except.ok t =>
      match mapRowsGo cols mapFunc rest with
      | Except.error e => Except.error e
      | Except.ok ts => Except.ok (t :: ts)

/-- The failure modes of `MapRow` (src/grepo.go:55-89): the joined
row-mapper error (line 75) and the "MapRow resulted in %d rows when expecting
was 0 or 1" error (line 80). -/
inductive MapRowErr (E : Type) where
  | rowMapperFailed (e : E)
  | tooManyRows (n : Nat)

/-- `MapRow` (src/grepo.go:55-89) over the outcome of `mapRowsGo`: propagate a
mapping failure (joined with context), fail when more than one row was mapped,
return the explicit absent result (`none`, the nil pointer) on zero rows, and
the single mapped value otherwise. -/
def MapRow {T : Type} {E : Type} (cols : List GoStr)
    (mapFunc : RowMap → Except E T) (rows : List (List Value)) :
    Except (MapRowErr E) (Option T) :=
  match mapRowsGo cols mapFunc rows with
  | Except.error e => Except.error (MapRowErr.rowMapperFailed e)
  | Except.ok result =>
    if result.length > 1 then Except.error (MapRowErr.tooManyRows result.length)
    else if result.length == 0 then Except.ok none
    else Except.ok result.head?

/-- `Result` (src/grepo.go:349-352). -/
structure GoResult where
  RowsAffected : Int
  LastInsertId : Int
deriving Repr, DecidableEq

/-- The transaction-level calls `Execute` makes against the engine. -/
inductive TxAction where
  | beginTx
  | execStmt
  | rollback
  | commit
deriving Repr, DecidableEq

/-- The engine's behaviour for one `Execute` call: whether `BeginTx`, `Exec`
and `Commit` succeed, and the metadata the driver can report (`none` when
`RowsAffected`/`LastInsertId` themselves error). -/
structure TxBehavior where
  beginOk : Bool
  execOk : Bool
  commitOk : Bool
  rowsAffected : Option Int
  lastInsertId : Option Int

/-- The failure modes of `Execute` (src/grepo.go:273-327). -/
inductive ExecErr where
  | beginFailed
  | execFailed
  | commitFailed
  | rowsAffectedFailed
  | lastInsertIdFailed
deriving Repr, DecidableEq

/-- `Execute` (src/grepo.go:273-327): begin a transaction; on `Exec` failure
roll back and return; otherwise commit; then read the metadata, substituting
`-1` for a field the driver cannot report (`rerr` keeps the `RowsAffected`
error and is overwritten by a `LastInsertId` error, and is returned alongside
the populated `Result`).  The returned trace records the engine calls in
order. -/
def Execute (b : TxBehavior) : List TxAction × GoResult × Option ExecErr :=
  if !b.beginOk then
    ([TxAction.beginTx], ⟨0, 0⟩, some ExecErr.beginFailed)
  else if !b.execOk then
    ([TxAction.beginTx, TxAction.execStmt, TxAction.rollback], ⟨0, 0⟩,
      some ExecErr.execFailed)
  else if !b.commitOk then
    ([TxAction.beginTx, TxAction.execStmt, TxAction.commit], ⟨0, 0⟩,
      some ExecErr.commitFailed)
  else
    let ra := b.rowsAffected.getD (-1)
    let li := b.lastInsertId.getD (-1)
    let rerr : Option ExecErr :=
      match b.lastInsertId with
      | none => some ExecErr.lastInsertIdFailed
      | some _ =>
        match b.rowsAffected with
        | none => some ExecErr.rowsAffectedFailed
        | some _ => none
    ([TxAction.beginTx, TxAction.execStmt, TxAction.commit], ⟨ra, li⟩, rerr)

/-! ### Specification-side characterisations of the first pass

The following definitions restate, independently of `npGo`'s accumulator, what
the first pass does: the trimmed names of the placeholder tokens in order, the
position each *occurrence* records, and the last recorded position per name.
They are used to state and prove the theorems about position bookkeeping. -/

/-- The trimmed names of the `:`-prefixed tokens, in order of occurrence
(duplicates kept). -/
def placeholderNames (tokens : List GoStr) : List GoStr :=
  (tokens.filter startsWithColon).map trimParam

/-- The placeholder occurrences of a query string, in order. -/
def placeholdersOf (s : GoStr) : List GoStr :=
  placeholderNames (goFields s)

/-- The position each placeholder occurrence records, scanning the tokens with
the running counter of `namedParameters`: each occurrence records `pos + 1`,
and the counter then also advances by the slice length of the occurrence's
argument value. -/
def occPositions (args : List (GoStr × Value)) : List GoStr → Nat → List (GoStr × Nat)
  | [], _ => []
  | w :: rest, pos =>
    if startsWithColon w then
      (trimParam w, pos + 1) ::
        occPositions args rest (pos + 1 + sliceBonus (lookupArg args (trimParam w)))
    else
      occPositions args rest pos

/-- The last position recorded for a name among the occurrences. -/
def lastOcc (n : GoStr) : List (GoStr × Nat) → Option Nat
  | [] => none
  | (m, p) :: rest =>
    match lastOcc n rest with
    | some q => some q
    | none => if m = n then some p else none

/-- The entry `namedParameters` builds for name `n` at recorded position `p`:
all fields other than the position depend only on the name and the argument
mapping. -/
def mkEntry (args : List (GoStr × Value)) (n : GoStr) (p : Nat) : ParamEntry :=
  { name := n, pos := p, val := lookupArg args n, len := entryLen (lookupArg args n) }

/-- Sum of the slice lengths of the argument values of a list of names
(0 for non-slice values). -/
def bonusSum (args : List (GoStr × Value)) (ns : List GoStr) : Nat :=
  (ns.map (fun n => sliceBonus (lookupArg args n))).sum

/-- Does a `substitute` outcome carry the "parameter ... not found" error? -/
def isParamNotFound {α : Type} : Except SubErr α → Bool
  | Except.error (SubErr.paramNotFound _) => true
  | _ => false


/-- `Except.isOk` spelled out (kept local to avoid library-version drift). -/
def isOkE {ε α : Type} : Except ε α → Bool
  | Except.ok _ => true
  | Except.error _ => false

/-! ### The dynamic row decoder's accessor calls as data -/

/-- One typed accessor call: which accessor, applied to which column key. -/
inductive RAccess where
  | aString (k : GoStr)
  | aInt64 (k : GoStr)
  | aInt32 (k : GoStr)
  | aInt16 (k : GoStr)
  | aInt8 (k : GoStr)
  | aFloat64 (k : GoStr)
  | aFloat32 (k : GoStr)
  | aBool (k : GoStr)
  | aBytes (k : GoStr)

/-- The column key of an accessor call. -/
def RAccess.key : RAccess → GoStr
  | RAccess.aString k => k
  | RAccess.aInt64 k => k
  | RAccess.aInt32 k => k
  | RAccess.aInt16 k => k
  | RAccess.aInt8 k => k
  | RAccess.aFloat64 k => k
  | RAccess.aFloat32 k => k
  | RAccess.aBool k => k
  | RAccess.aBytes k => k

/-- Run one accessor call, boxing the returned typed value. -/
def applyAccess (m : RowMap) (c : RAccess) : Value × RowMap :=
  match c with
  | RAccess.aString k => (Value.vstr (RowMap.String m k).1, (RowMap.String m k).2)
  | RAccess.aInt64 k => (Value.vint64 (RowMap.Int64 m k).1, (RowMap.Int64 m k).2)
  | RAccess.aInt32 k => (Value.vint32 (RowMap.Int32 m k).1, (RowMap.Int32 m k).2)
  | RAccess.aInt16 k => (Value.vint16 (RowMap.Int16 m k).1, (RowMap.Int16 m k).2)
  | RAccess.aInt8 k => (Value.vint8 (RowMap.Int8 m k).1, (RowMap.Int8 m k).2)
  | RAccess.aFloat64 k => (Value.vfloat64 (RowMap.Float64 m k).1, (RowMap.Float64 m k).2)
  | RAccess.aFloat32 k => (Value.vfloat32 (RowMap.Float32 m k).1, (RowMap.Float32 m k).2)
  | RAccess.aBool k => (Value.vbool (RowMap.Bool m k).1, (RowMap.Bool m k).2)
  | RAccess.aBytes k => (Value.vbytes (RowMap.Bytes m k).1, (RowMap.Bytes m k).2)

/-- The requested type's zero value (boxed), per accessor. -/
def zeroOf : RAccess → Value
  | RAccess.aString _ => Value.vstr ""
  | RAccess.aInt64 _ => Value.vint64 0
  | RAccess.aInt32 _ => Value.vint32 0
  | RAccess.aInt16 _ => Value.vint16 0
  | RAccess.aInt8 _ => Value.vint8 0
  | RAccess.aFloat64 _ => Value.vfloat64 0
  | RAccess.aFloat32 _ => Value.vfloat32 0
  | RAccess.aBool _ => Value.vbool false
  | RAccess.aBytes _ => Value.vbytes []

/-- Textual stored shape. -/
def isTextual : Value → Bool
  | Value.vstr _ => true
  | _ => false

/-- Signed-integer stored shape (the shapes `toInteger` accepts). -/
def isIntegerShaped : Value → Bool
  | Value.vint64 _ => true
  | Value.vint32 _ => true
  | Value.vint16 _ => true
  | Value.vint8 _ => true
  | _ => false

/-- Floating stored shape (the shapes `toFloat` accepts). -/
def isFloatShaped : Value → Bool
  | Value.vfloat64 _ => true
  | Value.vfloat32 _ => true
  | _ => false

/-- Byte-sequence stored shape. -/
def isByteShaped : Value → Bool
  | Value.vbytes _ => true
  | _ => false

/-- Specification-side failure criterion for one accessor call against a
column map (stated independently of the accessor implementations): the key is
missing, or the stored shape is incompatible with the requested type. -/
def accessFails (mm : List (GoStr × Value)) (c : RAccess) : Bool :=
  match mlookup mm c.key with
  | none => true
  | some v =>
    match c with
    | RAccess.aString _ => !isTextual v
    | RAccess.aInt64 _ => !isIntegerShaped v
    | RAccess.aInt32 _ => !isIntegerShaped v
    | RAccess.aInt16 _ => !isIntegerShaped v
    | RAccess.aInt8 _ => !isIntegerShaped v
    | RAccess.aFloat64 _ => !isFloatShaped v
    | RAccess.aFloat32 _ => !isFloatShaped v
    | RAccess.aBool _ => !isIntegerShaped v
    | RAccess.aBytes _ => !isByteShaped v

/-- Run a sequence of accessor calls, threading the decoder state. -/
def runAccesses (m : RowMap) : List RAccess → RowMap
  | [] => m
  | c :: cs => runAccesses (applyAccess m c).2 cs

/-- Concrete argument mapping for the position-bookkeeping counterexample:
a list-valued `bs` followed by a scalar `a`. -/
def c3Args : List (GoStr × Value) :=
  [("bs", Value.vslice GoKind.kInt64 [Value.vint64 1, Value.vint64 2]),
   ("a", Value.vint 7)]

/-- Concrete argument mapping for the repeated-placeholder counterexample. -/
def c4Args : List (GoStr × Value) :=
  [("a", Value.vint 7), ("b", Value.vint 8)]

/-- The spec's normalisation example: scalar `a = 7`, list `bs = [1, 2]`. -/
def c6Args : List (GoStr × Value) :=
  [("a", Value.vint 7),
   ("bs", Value.vslice GoKind.kInt64 [Value.vint64 1, Value.vint64 2])]

/-- A mapping function that always succeeds (reads column "c" as int64). -/
def c7MapFunc : RowMap → Except Unit Int :=
  fun r => Except.ok (RowMap.Int64 r "c").1

/-- An engine behaviour whose `Exec` step fails. -/
def c8Behavior : TxBehavior :=
  { beginOk := true, execOk := false, commitOk := true,
    rowsAffected := some 1, lastInsertId := some 1 }

theorem mlookup_insertReplace {α : Type} (xs : List (GoStr × α)) (k n : GoStr) (v : α) :
    mlookup (insertReplace xs k v) n = if k = n then some v else mlookup xs n := by
  induction xs with
  | nil => simp [insertReplace, mlookup]
  | cons p rest ih =>
    obtain ⟨k', v'⟩ := p
    by_cases h : k' = k
    · subst h
      simp only [insertReplace, if_pos rfl, mlookup]
      by_cases h2 : k' = n <;> simp [h2]
    · simp only [insertReplace, if_neg h, mlookup]
      by_cases h2 : k' = n
      · subst h2
        have hkn : ¬ k = k' := fun hk => h hk.symm
        simp [hkn]
      · simp [h2, ih]

theorem npGo_cons_colon (args : List (GoStr × Value)) (w : GoStr) (rest : List GoStr)
    (params : List (GoStr × ParamEntry)) (pos : Nat) (hw : startsWithColon w = true) :
    npGo args (w :: rest) params pos =
      npGo args rest
        (insertReplace params (trimParam w)
          { name := trimParam w
            pos := pos + 1
            val := lookupArg args (trimParam w)
            len := entryLen (lookupArg args (trimParam w)) })
        (pos + 1 + sliceBonus (lookupArg args (trimParam w))) := by
  simp [npGo, hw]

theorem npGo_cons_plain (args : List (GoStr × Value)) (w : GoStr) (rest : List GoStr)
    (params : List (GoStr × ParamEntry)) (pos : Nat) (hw : startsWithColon w = false) :
    npGo args (w :: rest) params pos = npGo args rest params pos := by
  simp [npGo, hw]

theorem occPositions_cons_colon (args : List (GoStr × Value)) (w : GoStr)
    (rest : List GoStr) (pos : Nat) (hw : startsWithColon w = true) :
    occPositions args (w :: rest) pos =
      (trimParam w, pos + 1) ::
        occPositions args rest (pos + 1 + sliceBonus (lookupArg args (trimParam w))) := by
  simp [occPositions, hw]

theorem occPositions_cons_plain (args : List (GoStr × Value)) (w : GoStr)
    (rest : List GoStr) (pos : Nat) (hw : startsWithColon w = false) :
    occPositions args (w :: rest) pos = occPositions args rest pos := by
  simp [occPositions, hw]

theorem placeholderNames_cons_colon (w : GoStr) (rest : List GoStr)
    (hw : startsWithColon w = true) :
    placeholderNames (w :: rest) = trimParam w :: placeholderNames rest := by
  simp [placeholderNames, List.filter_cons, hw]

theorem placeholderNames_cons_plain (w : GoStr) (rest : List GoStr)
    (hw : startsWithColon w = false) :
    placeholderNames (w :: rest) = placeholderNames rest := by
  simp [placeholderNames, List.filter_cons, hw]

/-- Complete characterisation of the first pass: the entry map built by
`npGo` returns, for every name, the entry of its *last* occurrence (its
recorded position given by `occPositions`), and falls back to the initial
accumulator for names with no occurrence. -/
theorem npGo_lookup (args : List (GoStr × Value)) (tokens : List GoStr) :
    ∀ (params : List (GoStr × ParamEntry)) (pos : Nat) (n : GoStr),
    mlookup (npGo args tokens params pos) n =
      match lastOcc n (occPositions args tokens pos) with
      | some p => some (mkEntry args n p)
      | none => mlookup params n := by
  induction tokens with
  | nil =>
    intro params pos n
    simp [npGo, occPositions, lastOcc]
  | cons w rest ih =>
    intro params pos n
    cases hw : startsWithColon w with
    | true =>
      rw [npGo_cons_colon args w rest params pos hw,
        occPositions_cons_colon args w rest pos hw, ih]
      cases hlo : lastOcc n
          (occPositions args rest (pos + 1 + sliceBonus (lookupArg args (trimParam w)))) with
      | some q => simp [lastOcc, hlo]
      | none =>
        simp only [lastOcc, hlo, mlookup_insertReplace]
        by_cases hn : trimParam w = n
        · subst hn
          simp [mkEntry]
        · simp [hn]
    | false =>
      rw [npGo_cons_plain args w rest params pos hw,
        occPositions_cons_plain args w rest pos hw]
      exact ih params pos n

/-- The names of the occurrence list are exactly the placeholder names. -/
theorem occPositions_fst (args : List (GoStr × Value)) (tokens : List GoStr) :
    ∀ pos : Nat, (occPositions args tokens pos).map Prod.fst = placeholderNames tokens := by
  induction tokens with
  | nil => intro pos; simp [occPositions, placeholderNames]
  | cons w rest ih =>
    intro pos
    cases hw : startsWithColon w with
    | true =>
      rw [occPositions_cons_colon args w rest pos hw, placeholderNames_cons_colon w rest hw]
      simp [ih]
    | false =>
      rw [occPositions_cons_plain args w rest pos hw, placeholderNames_cons_plain w rest hw]
      exact ih pos

/-- A name with no occurrence has no last recorded position. -/
theorem lastOcc_eq_none (n : GoStr) (xs : List (GoStr × Nat))
    (h : ¬ n ∈ xs.map Prod.fst) : lastOcc n xs = none := by
  induction xs with
  | nil => simp [lastOcc]
  | cons p rest ih =>
    obtain ⟨m, q⟩ := p
    simp only [List.map_cons, List.mem_cons] at h
    push_neg at h
    simp only [lastOcc, ih h.2]
    have hm : ¬ m = n := fun hm => h.1 hm.symm
    simp [hm]

/-- A name occurring once (the name list being duplicate-free) has its unique
occurrence's position as last recorded position. -/
theorem lastOcc_of_nodup (n : GoStr) (p : Nat) :
    ∀ (xs : List (GoStr × Nat)) (i : Nat), (xs.map Prod.fst).Nodup →
    xs.get? i = some (n, p) → lastOcc n xs = some p := by
  intro xs
  induction xs with
  | nil => intro i _ hg; simp [List.get?] at hg
  | cons q rest ih =>
    intro i hnd hg
    obtain ⟨m, u⟩ := q
    simp only [List.map_cons, List.nodup_cons] at hnd
    cases i with
    | zero =>
      simp only [List.get?, Option.some.injEq] at hg
      have h1 : m = n := congrArg Prod.fst hg
      have h2 : u = p := congrArg Prod.snd hg
      subst h1
      subst h2
      have hnone : lastOcc m rest = none := lastOcc_eq_none m rest hnd.1
      simp [lastOcc, hnone]
    | succ j =>
      simp only [List.get?] at hg
      have hrest := ih j hnd.2 hg
      simp [lastOcc, hrest]

/-- The i-th placeholder occurrence records position
`pos + i + 1 + (sum of the slice lengths of the earlier occurrences)`. -/
theorem occPositions_get (args : List (GoStr × Value)) (tokens : List GoStr) :
    ∀ (pos i : Nat) (n : GoStr), (placeholderNames tokens).get? i = some n →
    (occPositions args tokens pos).get? i =
      some (n, pos + i + 1 + bonusSum args ((placeholderNames tokens).take i)) := by
  induction tokens with
  | nil =>
    intro pos i n hn
    simp [placeholderNames, List.get?] at hn
  | cons w rest ih =>
    intro pos i n hn
    cases hw : startsWithColon w with
    | true =>
      rw [placeholderNames_cons_colon w rest hw] at hn
      rw [occPositions_cons_colon args w rest pos hw,
        placeholderNames_cons_colon w rest hw]
      cases i with
      | zero =>
        simp only [List.get?, Option.some.injEq] at hn
        simp [List.get?, hn, bonusSum]
      | succ j =>
        simp only [List.get?] at hn
        simp only [List.get?, List.take]
        rw [ih (pos + 1 + sliceBonus (lookupArg args (trimParam w))) j n hn]
        simp only [bonusSum, List.map_cons, List.sum_cons, Option.some.injEq, Prod.mk.injEq]
        exact ⟨trivial, by omega⟩
    | false =>
      rw [placeholderNames_cons_plain w rest hw] at hn
      rw [occPositions_cons_plain args w rest pos hw,
        placeholderNames_cons_plain w rest hw]
      exact ih pos i n hn

theorem lastOcc_isSome_of_mem (n : GoStr) (xs : List (GoStr × Nat))
    (h : n ∈ xs.map Prod.fst) : (lastOcc n xs).isSome := by
  induction xs with
  | nil => simp at h
  | cons q rest ih =>
    obtain ⟨m, u⟩ := q
    simp only [List.map_cons, List.mem_cons] at h
    cases hlo : lastOcc n rest with
    | some p => simp [lastOcc, hlo]
    | none =>
      have hn : n = m := by
        rcases h with h | h
        · exact h
        · exact absurd (ih h) (by simp [hlo])
      subst hn
      simp [lastOcc, hlo]

/-- Every placeholder name of the query text is a key of the entry map built
by `namedParameters` (the first pass puts *every* name it sees into the map,
whether or not the argument mapping has it). -/
theorem namedParameters_covers (s : GoStr) (args : List (GoStr × Value)) :
    ∀ w ∈ goFields s, startsWithColon w = true →
      (mlookup (namedParameters s args) (trimParam w)).isSome := by
  intro w hw hcolon
  unfold namedParameters
  rw [npGo_lookup]
  have hmem : trimParam w ∈ placeholderNames (goFields s) :=
    List.mem_map_of_mem _ (List.mem_filter.mpr ⟨hw, hcolon⟩)
  rw [← occPositions_fst args (goFields s) 0] at hmem
  have hsome := lastOcc_isSome_of_mem (trimParam w) (occPositions args (goFields s) 0) hmem
  cases hlo : lastOcc (trimParam w) (occPositions args (goFields s) 0) with
  | some p => simp [hlo]
  | none => rw [hlo] at hsome; simp at hsome

/-- When every placeholder name of the token list is a key of the entry map,
the rewrite loop cannot fail (in particular it never produces the
"parameter not found" error). -/
theorem subFields_isOk (params : List (GoStr × ParamEntry)) (tokens : List GoStr)
    (h : ∀ w ∈ tokens, startsWithColon w = true → (mlookup params (trimParam w)).isSome) :
    ∀ pos : Nat, isOkE (subFields params tokens pos) = true := by
  induction tokens with
  | nil => intro pos; simp [subFields, isOkE]
  | cons w rest ih =>
    intro pos
    have hrest : ∀ w' ∈ rest, startsWithColon w' = true →
        (mlookup params (trimParam w')).isSome :=
      fun w' hm => h w' (List.mem_cons_of_mem _ hm)
    cases hw : startsWithColon w with
    | true =>
      obtain ⟨pe, hpe⟩ := Option.isSome_iff_exists.mp (h w (List.mem_cons_self _ _) hw)
      have hr := ih hrest (pos + pe.len)
      simp only [subFields, hw, if_true, hpe]
      cases hsub : subFields params rest (pos + pe.len) with
      | ok out => obtain ⟨ws, cnt⟩ := out; simp [isOkE]
      | error e => rw [hsub] at hr; simp [isOkE] at hr
    | false =>
      have hr := ih hrest pos
      simp only [subFields, hw, Bool.false_eq_true, if_false]
      cases hsub : subFields params rest pos with
      | ok out => obtain ⟨ws, cnt⟩ := out; simp [isOkE]
      | error e => rw [hsub] at hr; simp [isOkE] at hr

/-- Per-call behaviour of every accessor: the column map is never modified;
the error accumulator grows by exactly one entry when the call fails (by the
specification-side criterion) and is untouched otherwise; and a failing call
returns the requested type's zero value. -/
theorem applyAccess_spec (m : RowMap) (c : RAccess) :
    (applyAccess m c).2.m = m.m ∧
    (applyAccess m c).2.errors.length =
      m.errors.length + (if accessFails m.m c then 1 else 0) ∧
    (accessFails m.m c = true → (applyAccess m c).1 = zeroOf c) := by
  cases c with
  | aString k =>
    cases hv : mlookup m.m k with
    | none =>
      simp [applyAccess, RowMap.String, RowMap.tryGet, hv, accessFails, RAccess.key,
        RowMap.addErr, zeroOf]
    | some v =>
      cases v <;>
        simp [applyAccess, RowMap.String, RowMap.tryGet, RowMap.mget, hv, accessFails,
          RAccess.key, RowMap.addErr, zeroOf, isTextual]
  | aInt64 k =>
    cases hv : mlookup m.m k with
    | none =>
      simp [applyAccess, RowMap.Int64, RowMap.tryGet, hv, accessFails, RAccess.key,
        RowMap.addErr, zeroOf]
    | some v =>
      cases v <;>
        simp [applyAccess, RowMap.Int64, RowMap.tryGet, RowMap.mget, hv, accessFails,
          RAccess.key, RowMap.addErr, zeroOf, isIntegerShaped, toInteger]
  | aInt32 k =>
    cases hv : mlookup m.m k with
    | none =>
      simp [applyAccess, RowMap.Int32, RowMap.tryGet, hv, accessFails, RAccess.key,
        RowMap.addErr, zeroOf]
    | some v =>
      cases v <;>
        simp [applyAccess, RowMap.Int32, RowMap.tryGet, RowMap.mget, hv, accessFails,
          RAccess.key, RowMap.addErr, zeroOf, isIntegerShaped, toInteger]
  | aInt16 k =>
    cases hv : mlookup m.m k with
    | none =>
      simp [applyAccess, RowMap.Int16, RowMap.tryGet, hv, accessFails, RAccess.key,
        RowMap.addErr, zeroOf]
    | some v =>
      cases v <;>
        simp [applyAccess, RowMap.Int16, RowMap.tryGet, RowMap.mget, hv, accessFails,
          RAccess.key, RowMap.addErr, zeroOf, isIntegerShaped, toInteger]
  | aInt8 k =>
    cases hv : mlookup m.m k with
    | none =>
      simp [applyAccess, RowMap.Int8, RowMap.tryGet, hv, accessFails, RAccess.key,
        RowMap.addErr, zeroOf]
    | some v =>
      cases v <;>
        simp [applyAccess, RowMap.Int8, RowMap.tryGet, RowMap.mget, hv, accessFails,
          RAccess.key, RowMap.addErr, zeroOf, isIntegerShaped, toInteger]
  | aFloat64 k =>
    cases hv : mlookup m.m k with
    | none =>
      simp [applyAccess, RowMap.Float64, RowMap.tryGet, hv, accessFails, RAccess.key,
        RowMap.addErr, zeroOf]
    | some v =>
      cases v <;>
        simp [applyAccess, RowMap.Float64, RowMap.tryGet, RowMap.mget, hv, accessFails,
          RAccess.key, RowMap.addErr, zeroOf, isFloatShaped, toFloat]
  | aFloat32 k =>
    cases hv : mlookup m.m k with
    | none =>
      simp [applyAccess, RowMap.Float32, RowMap.tryGet, hv, accessFails, RAccess.key,
        RowMap.addErr, zeroOf]
    | some v =>
      cases v <;>
        simp [applyAccess, RowMap.Float32, RowMap.tryGet, RowMap.mget, hv, accessFails,
          RAccess.key, RowMap.addErr, zeroOf, isFloatShaped, toFloat]
  | aBool k =>
    cases hv : mlookup m.m k with
    | none =>
      simp [applyAccess, RowMap.Bool, RowMap.tryGet, hv, accessFails, RAccess.key,
        RowMap.addErr, zeroOf]
    | some v =>
      cases v <;>
        simp [applyAccess, RowMap.Bool, RowMap.tryGet, RowMap.mget, hv, accessFails,
          RAccess.key, RowMap.addErr, zeroOf, isIntegerShaped, goEq]
  | aBytes k =>
    cases hv : mlookup m.m k with
    | none =>
      simp [applyAccess, RowMap.Bytes, RowMap.tryGet, hv, accessFails, RAccess.key,
        RowMap.addErr, zeroOf]
    | some v =>
      cases v <;>
        simp [applyAccess, RowMap.Bytes, RowMap.tryGet, RowMap.mget, hv, accessFails,
          RAccess.key, RowMap.addErr, zeroOf, isByteShaped]

/-- Running a call sequence preserves the column map and grows the error
accumulator by exactly the number of failing calls. -/
theorem runAccesses_spec (cs : List RAccess) :
    ∀ m : RowMap, (runAccesses m cs).m = m.m ∧
      (runAccesses m cs).errors.length =
        m.errors.length + (cs.filter (fun c => accessFails m.m c)).length := by
  induction cs with
  | nil => intro m; simp [runAccesses]
  | cons c cs ih =>
    intro m
    obtain ⟨hm, hlen, _⟩ := applyAccess_spec m c
    obtain ⟨hm2, hlen2⟩ := ih (applyAccess m c).2
    constructor
    · rw [runAccesses, hm2, hm]
    · rw [runAccesses, hlen2, hm, hlen]
      by_cases hf : accessFails m.m c
      · simp [List.filter_cons, hf]
        omega
      · simp [List.filter_cons, hf]

theorem Err_eq_none_iff (m : RowMap) : RowMap.Err m = none ↔ m.errors = [] := by
  obtain ⟨mm, errs⟩ := m
  cases errs <;> simp [RowMap.Err, List.isEmpty]

theorem mapRowsGo_ok_of_all {T E : Type} (cols : List GoStr)
    (mapFunc : RowMap → Except E T) (rows : List (List Value))
    (h : ∀ row ∈ rows, isOkE (mapFunc (toMap cols row)) = true) :
    ∃ ts : List T, mapRowsGo cols mapFunc rows = Except.ok ts ∧ ts.length = rows.length := by
  induction rows with
  | nil => exact ⟨[], rfl, rfl⟩
  | cons r rs ih =>
    have hr := h r (List.mem_cons_self _ _)
    cases hm : mapFunc (toMap cols r) with
    | error e => rw [hm] at hr; simp [isOkE] at hr
    | ok t =>
      obtain ⟨ts, hts, hlen⟩ := ih (fun row hrow => h row (List.mem_cons_of_mem _ hrow))
      exact ⟨t :: ts, by simp [mapRowsGo, hm, hts], by simp [hlen]⟩

/-- Claim C1.  The claim states that a named token with no entry in the
argument mapping makes the pipeline fail with the unresolved-parameter error
before any execution.  The code does the opposite: the first pass puts *every*
placeholder name into the entry map (with the nil interface as value when the
argument is missing), so `substitute` can never return its "parameter not
found" error when fed `namedParameters`' output (first conjunct), and on the
concrete failing input `":a"` with an empty argument mapping the pipeline
succeeds, handing the rewritten text `$1` and the nil argument to execution
(remaining conjuncts). -/
theorem c1_missing_arg_not_rejected :
    (∀ (s : GoStr) (args : List (GoStr × Value)),
      isParamNotFound (substitute s (namedParameters s args)) = false) ∧
    substitute ":a" (namedParameters ":a" []) = Except.ok "$1" ∧
    flattenArgs (namedParameters ":a" []) = [Value.vnull] := by
  refine ⟨?_, by rfl, by rfl⟩
  intro s args
  have h := subFields_isOk (namedParameters s args) (goFields s)
    (fun w hw hc => namedParameters_covers s args w hw hc) 1
  cases hsub : subFields (namedParameters s args) (goFields s) 1 with
  | ok out =>
    obtain ⟨ws, cnt⟩ := out
    simp only [substitute, hsub]
    split <;> simp [isParamNotFound]
  | error e => rw [hsub] at h; simp [isOkE] at h

/-- Claim C2.  The claim states `Bool` returns true exactly when the stored
integer-shaped value is zero.  In the code the multi-type case of the type
switch leaves `v` as an interface, so `v == 0` compares dynamic types
`int64`/`int32`/`int16`/`int8` against `int` and is always false: `Bool`
returns false even for a stored zero (of any width), while indeed recording
no error for integer-shaped values. -/
theorem c2_bool_zero_reads_false :
    (∀ n : Int, (RowMap.Bool (toMap ["b"] [Value.vint64 n]) "b").1 = false ∧
      (RowMap.Bool (toMap ["b"] [Value.vint64 n]) "b").2.errors = []) ∧
    (RowMap.Bool (toMap ["b"] [Value.vint64 0]) "b").1 = false ∧
    (RowMap.Bool (toMap ["b"] [Value.vint32 0]) "b").1 = false ∧
    (RowMap.Bool (toMap ["b"] [Value.vint16 0]) "b").1 = false ∧
    (RowMap.Bool (toMap ["b"] [Value.vint8 0]) "b").1 = false := by
  exact ⟨fun n => ⟨rfl, rfl⟩, rfl, rfl, rfl, rfl⟩

/-- Claim C3, counterexample.  For the query `":bs :a"` with `bs = [1,2]` and
`a = 7`, the claim predicts position `1 + slotCount(bs) = 3` for the entry of
`a`; the first pass records `4` (the counter advances by `1 + len(list)` for
a list, not by `len(list)`). -/
theorem c3_position_counterexample :
    (mlookup (namedParameters ":bs :a" c3Args) "a").map ParamEntry.pos = some 4 ∧
    (((mlookup (namedParameters ":bs :a" c3Args) "a").map ParamEntry.pos)
      == some 3) = false := by
  exact ⟨rfl, rfl⟩

/-- Claim C3, amended.  In the first pass each placeholder occurrence
advances the counter by one *and then* by `len(list)` for list values, so
(for a query whose placeholder names are pairwise distinct) the entry of the
i-th name records position `i + 1 + (sum of the list lengths of the earlier
names' values)` — not one plus the sum of the earlier slot counts. -/
theorem c3_first_pass_positions (s : GoStr) (args : List (GoStr × Value))
    (hnd : (placeholdersOf s).Nodup) (i : Nat) (n : GoStr)
    (hn : (placeholdersOf s).get? i = some n) :
    mlookup (namedParameters s args) n =
      some (mkEntry args n (i + 1 + bonusSum args ((placeholdersOf s).take i))) := by
  unfold namedParameters
  rw [npGo_lookup]
  have hocc := occPositions_get args (goFields s) 0 i n (by simpa [placeholdersOf] using hn)
  have hnd' : ((occPositions args (goFields s) 0).map Prod.fst).Nodup := by
    rw [occPositions_fst]
    simpa [placeholdersOf] using hnd
  have hlast := lastOcc_of_nodup n
    (0 + i + 1 + bonusSum args ((placeholderNames (goFields s)).take i))
    (occPositions args (goFields s) 0) i hnd' hocc
  rw [hlast]
  simp [placeholdersOf]

/-- Witness for the amended claim C3 at the counterexample input: the second
placeholder (`a`, index 1) of `":bs :a"` records position
`1 + 1 + len(bs) = 4`. -/
theorem c3_first_pass_positions_witness :
    mlookup (namedParameters ":bs :a" c3Args) "a" =
      some { name := "a", pos := 4, val := Value.vint 7, len := 1 } := by
  rw [c3_first_pass_positions ":bs :a" c3Args (by decide) 1 "a" (by rfl)]
  rfl

/-- Claim C4, counterexample.  For `":a :a :b"` the claim predicts that the
second `:a` neither overwrites the entry nor advances the counter, so `a`
keeps position 1 and `b` records 2; the code records 2 for `a` (last
occurrence) and 3 for `b`. -/
theorem c4_repeat_counterexample :
    (mlookup (namedParameters ":a :a :b" c4Args) "a").map ParamEntry.pos = some 2 ∧
    (((mlookup (namedParameters ":a :a :b" c4Args) "a").map ParamEntry.pos)
      == some 1) = false ∧
    (mlookup (namedParameters ":a :a :b" c4Args) "b").map ParamEntry.pos = some 3 ∧
    (((mlookup (namedParameters ":a :a :b" c4Args) "b").map ParamEntry.pos)
      == some 2) = false := by
  exact ⟨rfl, rfl, rfl, rfl⟩

/-- Claim C4, amended.  Every occurrence of a placeholder — re-occurrences
included — creates a fresh entry (overwriting the previous one) and advances
the position counter, so the entry stored for a name carries the position
recorded at its *last* occurrence: the first-pass map is exactly the
last-occurrence view of the occurrence/position scan. -/
theorem c4_last_occurrence_wins (s : GoStr) (args : List (GoStr × Value)) (n : GoStr) :
    mlookup (namedParameters s args) n =
      (lastOcc n (occPositions args (goFields s) 0)).map (fun p => mkEntry args n p) := by
  unfold namedParameters
  rw [npGo_lookup]
  cases lastOcc n (occPositions args (goFields s) 0) <;> simp [mlookup]

/-- Claim C5.  The claim (and the repository's own `TestNamedParameters`,
which expects keys such as `":artistId"`) says the trim keeps the sigil and
strips other surrounding punctuation.  The `TrimFunc` predicate as written is
satisfied exactly by `:`, `(`, `)` (last conjunct), so the code strips the
sigil and keeps a trailing comma — the opposite of the spec's wording on both
counts, as the comparison with the spec-modelled trim shows. -/
theorem c5_trim_keeps_comma_drops_sigil :
    trimParam ":artistId" = "artistId" ∧
    trimParam ":id," = "id," ∧
    trimParamSpec ":id," = ":id" ∧
    ((trimParam ":id," == trimParamSpec ":id,")) = false ∧
    (∀ r : Char, trimPredicate r = (r == ':' || r == '(' || r == ')')) := by
  refine ⟨rfl, rfl, rfl, rfl, ?_⟩
  intro r
  by_cases h1 : r = ':'
  · subst h1; rfl
  · by_cases h2 : r = '('
    · subst h2; rfl
    · by_cases h3 : r = ')'
      · subst h3; rfl
      · have b1 : (r == ':') = false := beq_eq_false_iff_ne.mpr h1
        have b2 : (r == '(') = false := beq_eq_false_iff_ne.mpr h2
        have b3 : (r == ')') = false := beq_eq_false_iff_ne.mpr h3
        simp [trimPredicate, b1, b2, b3]

/-- Claim C6.  Normalising `":a ... :bs"` with `a = 7` and `bs = [1, 2]`
rewrites the text to `$1 ... $2, $3` and flattens the arguments, sorted by
entry position, to `[7, 1, 2]`. -/
theorem c6_normalize_example :
    substitute ":a ... :bs" (namedParameters ":a ... :bs" c6Args) =
      Except.ok "$1 ... $2, $3" ∧
    flattenArgs (namedParameters ":a ... :bs" c6Args) =
      [Value.vint 7, Value.vint64 1, Value.vint64 2] := by
  exact ⟨rfl, rfl⟩

/-- Claim C7.  Provided the mapping function succeeds on every produced row,
`MapRow` returns the absent result (with no error) on zero rows, the single
mapped value on one row, and the too-many-rows error on two or more rows. -/
theorem c7_mapRow_cardinality {T E : Type} (cols : List GoStr)
    (mapFunc : RowMap → Except E T) (rows : List (List Value))
    (h : ∀ row ∈ rows, isOkE (mapFunc (toMap cols row)) = true) :
    (rows = [] → MapRow cols mapFunc rows = Except.ok none) ∧
    (∀ row t, rows = [row] → mapFunc (toMap cols row) = Except.ok t →
      MapRow cols mapFunc rows = Except.ok (some t)) ∧
    (2 ≤ rows.length →
      MapRow cols mapFunc rows = Except.error (MapRowErr.tooManyRows rows.length)) := by
  obtain ⟨ts, hts, hlen⟩ := mapRowsGo_ok_of_all cols mapFunc rows h
  refine ⟨?_, ?_, ?_⟩
  · rintro rfl
    simp [MapRow, mapRowsGo]
  · rintro row t hrows hm
    subst hrows
    simp [MapRow, mapRowsGo, hm]
  · intro h2
    have hgt : ts.length > 1 := by omega
    simp only [MapRow, hts]
    rw [if_pos hgt, hlen]

/-- Witness for claim C7: a two-row query under an always-succeeding mapping
function fails with the too-many-rows error. -/
theorem c7_mapRow_cardinality_witness :
    MapRow ["c"] c7MapFunc [[Value.vint64 4], [Value.vint64 5]] =
      Except.error (MapRowErr.tooManyRows 2) := by
  exact (c7_mapRow_cardinality ["c"] c7MapFunc [[Value.vint64 4], [Value.vint64 5]]
    (fun row _ => rfl)).2.2 (by decide)

/-- Claim C8.  In `Execute`, a failing `Exec` (inside a successfully begun
transaction) is always followed by `Rollback` and never by `Commit`, and
`Commit` is reached only when `Exec` succeeded. -/
theorem c8_exec_failure_rolls_back (b : TxBehavior) :
    (b.beginOk = true → b.execOk = false →
      TxAction.rollback ∈ (Execute b).1 ∧ TxAction.commit ∉ (Execute b).1) ∧
    (TxAction.commit ∈ (Execute b).1 → b.beginOk = true ∧ b.execOk = true) := by
  obtain ⟨bo, eo, co, ra, li⟩ := b
  cases bo <;> cases eo <;> cases co <;> cases ra <;> cases li <;>
    simp [Execute]

/-- Witness for claim C8 at a concrete behaviour whose `Exec` fails. -/
theorem c8_exec_failure_rolls_back_witness :
    TxAction.rollback ∈ (Execute c8Behavior).1 ∧
      TxAction.commit ∉ (Execute c8Behavior).1 :=
  (c8_exec_failure_rolls_back c8Behavior).1 rfl rfl

/-- Claim C9.  Accessors never raise: each call leaves the column map intact,
appends exactly one error when it fails (key missing or incompatible stored
shape) and none otherwise, returns the requested type's zero value on
failure; over any call sequence on a freshly built decoder, `Err()` is `nil`
exactly when no call failed.  In particular, for the decoder built from
columns `["n"]` and values `["hello"]`: `String("n")` is `"hello"` with no
error, and `Int64("n")` is `0` with exactly one recorded column-read error. -/
theorem c9_accessors_accumulate_errors :
    (∀ (m : RowMap) (c : RAccess),
      (applyAccess m c).2.m = m.m ∧
      (applyAccess m c).2.errors.length =
        m.errors.length + (if accessFails m.m c then 1 else 0) ∧
      (accessFails m.m c = true → (applyAccess m c).1 = zeroOf c)) ∧
    (∀ (cols : List GoStr) (values : List Value) (cs : List RAccess),
      (runAccesses (toMap cols values) cs).Err = none ↔
        cs.filter (fun c => accessFails (toMap cols values).m c) = []) ∧
    (RowMap.String (toMap ["n"] [Value.vstr "hello"]) "n").1 = "hello" ∧
    (RowMap.String (toMap ["n"] [Value.vstr "hello"]) "n").2.Err = none ∧
    (RowMap.Int64 (toMap ["n"] [Value.vstr "hello"]) "n").1 = 0 ∧
    (RowMap.Int64 (toMap ["n"] [Value.vstr "hello"]) "n").2.errors =
      [GrepoErr.colRead "n" (Value.vint64 0) "int64"] := by
  refine ⟨applyAccess_spec, ?_, rfl, rfl, rfl, rfl⟩
  intro cols values cs
  obtain ⟨hm, hlen⟩ := runAccesses_spec cs (toMap cols values)
  have herr0 : (toMap cols values).errors = [] := rfl
  rw [Err_eq_none_iff]
  constructor
  · intro h
    have h0 : (runAccesses (toMap cols values) cs).errors.length = 0 := by
      rw [h]; rfl
    rw [hlen, herr0] at h0
    simp only [List.length_nil, Nat.zero_add] at h0
    exact List.length_eq_zero.mp h0
  · intro h
    have h0 : (runAccesses (toMap cols values) cs).errors.length = 0 := by
      rw [hlen, herr0, h]
      rfl
    exact List.length_eq_zero.mp h0

/-- Witness for claim C9: the failing `Int64` access on the decoder built
from `["n"]`/`["hello"]` returns the boxed zero value. -/
theorem c9_accessors_accumulate_errors_witness :
    (applyAccess (toMap ["n"] [Value.vstr "hello"]) (RAccess.aInt64 "n")).1 =
      zeroOf (RAccess.aInt64 "n") :=
  (c9_accessors_accumulate_errors.1 (toMap ["n"] [Value.vstr "hello"])
    (RAccess.aInt64 "n")).2.2 (by rfl)

/-- Claim C10.  The positional-argument pre-processing of `MapRows` keeps the
argument count (one statement argument per original slot), replaces every
slice-kind argument with the single string joining its rendered elements with
`", "` (strings quoted, integers and booleans as text; `[]byte` via `%v`),
and passes every other argument through unchanged — shown on a concrete
vector with string, integer and boolean slices. -/
theorem c10_positional_slice_rendering (args : List Value) :
    (expandSliceArgs args).length = args.length ∧
    (∀ (i : Nat) (k : GoKind) (xs : List Value),
      args.get? i = some (Value.vslice k xs) →
      (expandSliceArgs args).get? i =
        some (Value.vstr (String.intercalate ", " (xs.map (renderElem k))))) ∧
    (∀ (i : Nat) (bs : List Nat),
      args.get? i = some (Value.vbytes bs) →
      (expandSliceArgs args).get? i =
        some (Value.vstr (String.intercalate ", "
          (bs.map (fun b => goVerbV (Value.vuint8 b)))))) ∧
    (∀ (i : Nat) (v : Value), args.get? i = some v → isSliceKind v = false →
      (expandSliceArgs args).get? i = some v) ∧
    expandSliceArgs [Value.vint64 7,
        Value.vslice GoKind.kString [Value.vstr "x", Value.vstr "y"],
        Value.vslice GoKind.kInt64 [Value.vint64 1, Value.vint64 2],
        Value.vslice GoKind.kBool [Value.vbool true, Value.vbool false]] =
      [Value.vint64 7, Value.vstr "\x27x\x27, \x27y\x27", Value.vstr "1, 2",
        Value.vstr "true, false"] := by
  refine ⟨by simp [expandSliceArgs], ?_, ?_, ?_, by rfl⟩
  · intro i k xs hi
    unfold expandSliceArgs
    rw [List.get?_map, hi]
    rfl
  · intro i bs hi
    unfold expandSliceArgs
    rw [List.get?_map, hi]
    rfl
  · intro i v hi hv
    unfold expandSliceArgs
    rw [List.get?_map, hi]
    cases v <;> simp_all [isSliceKind, sliceKindLen]

/-- Witness for claim C10: one string slice renders to a single quoted,
comma-joined string argument. -/
theorem c10_positional_slice_rendering_witness :
    (expandSliceArgs [Value.vslice GoKind.kString [Value.vstr "x"]]).get? 0 =
      some (Value.vstr "\x27x\x27") := by
  exact (c10_positional_slice_rendering
    [Value.vslice GoKind.kString [Value.vstr "x"]]).2.1 0 GoKind.kString
    [Value.vstr "x"] rfl
